import Mathlib

/-
  Verification development for the settlement reconciliation program
  (src/rust/src/main.rs).  The program provisions two wallets ("Miner"
  and "Trader") on a regtest node, mines funds, sends 20 BTC from Miner
  to Trader, classifies the outputs of the confirmed transaction into payment
  and change, derives the fee, and writes a ten-line report.

  Shallow embedding conventions:
  - BTC amounts (f64 `to_btc()` values in the source) are modelled as ℚ.
  - Addresses are strings tagged with the network they are valid on;
    `require_network` succeeds exactly when the tag is the expected
    network, mirroring the bitcoin library function Address::require_network.  Its error
    message names the offending address (the library Display includes
    the address; the source wraps it with a fixed prefix via map_err).
  - Fallible Rust paths (the `?` operator) become Except; a `.unwrap()`
    panic becomes the `none` case of an Option-valued function.
  - RPC-returned data (transaction details, decoded outputs) are
    explicit arguments to the embedded functions.
-/

namespace Settlement

/-- Networks an address can be valid on (bitcoincore_rpc::bitcoin::Network). -/
inductive Network where
  | regtest
  | testnet
  | mainnet
deriving DecidableEq, Repr

/-- An address as the program sees it: its string form together with the
network it is valid on. -/
structure Address where
  s : String
  network : Network
deriving DecidableEq, Repr

/-- Error message produced when an address fails network validation;
models the Display of the network-validation error of the bitcoin library,
which names the offending address. -/
def networkError (a : Address) : String :=
  "address " ++ a.s ++ " is not valid on the required network"

/-- Models `Address::require_network(Network::Regtest)`: succeeds iff the
address is valid for the expected network, otherwise errors naming the
address. -/
def require_network (a : Address) (n : Network) : Except String Address :=
  if a.network = n then Except.ok a else Except.error (networkError a)

/-- One decoded transaction output as returned by decode_raw_transaction:
`script_pub_key.address` (possibly absent) and `value.to_btc()`. -/
structure DecodedVout where
  address : Option Address
  value : ℚ
deriving DecidableEq, Repr

/-- The change-classification loop of main.rs lines 226-252, with the
mutable state (`change_address`, `change_amount`) passed as the
accumulator `acc`.  For each output with a known address the address is
resolved with `require_network` (a failure propagates with `?`, i.e.
aborts the whole classification); the first resolved address whose
string form differs from the trader address string becomes the change
(the loop `break`s); outputs without an address are skipped. -/
def classifyChangeLoop (trader_addr_str : String) :
    List DecodedVout → Address × ℚ → Except String (Address × ℚ)
  | [], acc => Except.ok acc
  | v :: rest, acc =>
    match v.address with
    | none => classifyChangeLoop trader_addr_str rest acc
    | some addr =>
      match require_network addr Network.regtest with
      | Except.error e =>
          Except.error ("Failed to process output address: " ++ e)
      | Except.ok output_addr =>
          if output_addr.s ≠ trader_addr_str then
            Except.ok (output_addr, v.value)
          else
            classifyChangeLoop trader_addr_str rest acc

/-- The classification entry point: the accumulator starts at the
fallback (`change_address = mining_reward_address`, `change_amount = 0.0`,
main.rs lines 222-223). -/
def classifyChange (outs : List DecodedVout) (trader_addr_str : String)
    (fallback : Address) : Except String (Address × ℚ) :=
  classifyChangeLoop trader_addr_str outs (fallback, 0)

/-- The diagnostic block of main.rs lines 255-259: when the change amount
is zero the program prints a warning listing three plausible root causes
and continues; otherwise nothing is printed.  (String bodies paraphrase
the println! text without punctuation that the source renders with an
apostrophe.) -/
def zeroChangeDiagnostic (change_amount : ℚ) : List String :=
  if change_amount = 0 then
    ["Warning: No change output found. This might indicate:",
     "1. The input amount exactly equals output + fees",
     "2. There is an issue with address comparison",
     "3. The transaction structure is different than expected"]
  else []

/-- Spec-side definition, written from the words of the spec for comparison
with `classifyChange`: "The first non-matching output encountered becomes
change; its resolved address and amount are recorded."  Returns `none`
when no non-matching output exists. -/
def specFirstNonMatching (counterparty : String) :
    List DecodedVout → Option (Address × ℚ)
  | [] => none
  | v :: rest =>
    match v.address with
    | none => specFirstNonMatching counterparty rest
    | some a =>
      if a.s ≠ counterparty then some (a, v.value)
      else specFirstNonMatching counterparty rest

/-- Category of a per-wallet transaction detail entry
(GetTransactionResultDetailCategory). -/
inductive Category where
  | send
  | receive
  | generate
  | immature
  | orphan
deriving DecidableEq, Repr

/-- One entry of `tx_details.details`: a category and a signed BTC
amount. -/
structure TxDetail where
  category : Category
  amount : ℚ
deriving DecidableEq, Repr

/-- The slice of the gettransaction result the program reads: the detail
entries and the optional fee field. -/
structure GetTransactionResult where
  details : List TxDetail
  fee : Option ℚ
deriving DecidableEq, Repr

/-- From main.rs lines 286-291: the "input amount" is the absolute value of
the amount of the first detail entry with category Send, defaulting to
0.0 when no such entry exists. -/
def input_amount (t : GetTransactionResult) : ℚ :=
  match t.details.find? (fun d => d.category == Category.send) with
  | some d => |d.amount|
  | none => 0

/-- From main.rs line 293: the reported payment amount is the hard-coded
constant 20.0 ("We sent 20 BTC"). -/
def output_amount : ℚ := 20

/-- From main.rs lines 294 and 305: `tx_details.fee.unwrap_or(SignedAmount::ZERO)
.to_btc().abs()` — the fee field with 0 as default, absolute value. -/
def computeFee (fee : Option ℚ) : ℚ := |fee.getD 0|

/-- Scripts as the second extraction loop sees them: either a script
from which the library can derive an address, or one from which it
cannot (e.g. an OP_RETURN data script). -/
inductive Script where
  | withAddress (a : Address)
  | opReturn
deriving DecidableEq, Repr

/-- Models `bitcoin::Address::from_script(script, Network::Regtest)`
restricted to what the loop observes: Some address when the script
encodes one, none (the Err case) otherwise. -/
def from_script : Script → Option Address
  | Script.withAddress a => some a
  | Script.opReturn => none

/-- One raw transaction output as iterated by main.rs lines 311-318. -/
structure TxOut where
  script_pubkey : Script
  value : ℚ
deriving DecidableEq, Repr

/-- The second output-extraction loop of main.rs lines 311-318, with the
mutable `trader_output` / `change_output` options as accumulators.  Every
output script goes through `from_script` followed by unwrap; the
unwrap panic is modelled as the overall result `none`. -/
def extractOutputsLoop (trader_address : Address) :
    List TxOut → Option (Address × ℚ) → Option (Address × ℚ) →
    Option (Option (Address × ℚ) × Option (Address × ℚ))
  | [], t, c => some (t, c)
  | o :: rest, t, c =>
    match from_script o.script_pubkey with
    | none => none
    | some out_address =>
      if out_address = trader_address then
        extractOutputsLoop trader_address rest (some (out_address, o.value)) c
      else
        extractOutputsLoop trader_address rest t (some (out_address, o.value))

/-- Entry point of the second extraction loop: both accumulators start
at `None` (main.rs lines 308-309). -/
def extractOutputs (outs : List TxOut) (trader_address : Address) :
    Option (Option (Address × ℚ) × Option (Address × ℚ)) :=
  extractOutputsLoop trader_address outs none none

/-- The settlement record: the ten values main.rs interpolates into
`output_content` (line 328), in field order. -/
structure SettlementRecord where
  txid : String
  senderFundingAddress : String
  inputAmount : ℚ
  counterpartyAddress : String
  paymentAmount : ℚ
  changeAddress : String
  changeAmount : ℚ
  fee : ℚ
  blockHeight : Nat
  blockHash : String
deriving DecidableEq, Repr

/-- Assembles the settlement record from the node-reported transaction
details, the classified change, and the chain metadata, exactly as the
values are produced in main.rs lines 286-294 and consumed at line 328. -/
def buildRecord (txid : String) (mining_reward_address : Address)
    (trader_receive_address : Address) (txd : GetTransactionResult)
    (change : Address × ℚ) (block_height : Nat) (block_hash : String) :
    SettlementRecord :=
  { txid := txid
    senderFundingAddress := mining_reward_address.s
    inputAmount := input_amount txd
    counterpartyAddress := trader_receive_address.s
    paymentAmount := output_amount
    changeAddress := (change.1).s
    changeAmount := change.2
    fee := computeFee txd.fee
    blockHeight := block_height
    blockHash := block_hash }

/-- The ten report fields after Display rendering, in the order they
appear in the format! string of main.rs line 328. -/
structure ReportFields where
  txid : String
  mining_reward_address : String
  input_amount : String
  trader_receive_address : String
  output_amount : String
  change_address : String
  change_amount : String
  fee : String
  block_height : String
  block_hash : String
deriving DecidableEq, Repr

/-- The rendered field values in line order. -/
def reportLines (r : ReportFields) : List String :=
  [r.txid, r.mining_reward_address, r.input_amount, r.trader_receive_address,
   r.output_amount, r.change_address, r.change_amount, r.fee,
   r.block_height, r.block_hash]

/-- From main.rs line 328: the format! string — the ten fields joined by
single newlines, with nothing after the last field. -/
def output_content (r : ReportFields) : String :=
  r.txid ++ "\n" ++ r.mining_reward_address ++ "\n" ++ r.input_amount ++ "\n" ++
  r.trader_receive_address ++ "\n" ++ r.output_amount ++ "\n" ++
  r.change_address ++ "\n" ++ r.change_amount ++ "\n" ++ r.fee ++ "\n" ++
  r.block_height ++ "\n" ++ r.block_hash

/-- Models `File::create(path)` followed by `write_all(content)` on a
file system mapping paths to contents: truncate-create, i.e. the path now
maps to exactly `content` whether or not it existed before. -/
def writeReport (fs : String → Option String) (path content : String) :
    String → Option String :=
  fun p => if p = path then some content else fs p

/-- Splits a character list at newline characters; a string with k
newline characters yields k+1 lines. -/
def splitOnNl : List Char → List (List Char)
  | [] => [[]]
  | c :: cs =>
    if c = '\n' then [] :: splitOnNl cs
    else
      match splitOnNl cs with
      | [] => [[c]]
      | l :: ls => (c :: l) :: ls

/-- Joins lines with single newline separators and nothing trailing. -/
def joinNl : List (List Char) → List Char
  | [] => []
  | [x] => x
  | x :: xs => x ++ '\n' :: joinNl xs

/-- The lines of a string, for stating the report-format theorem. -/
def linesOf (s : String) : List (List Char) := splitOnNl s.data

/-- Node-side wallet state: which wallet names are currently loaded and
which exist on disk. -/
structure NodeState where
  loaded : List String
  onDisk : List String
deriving DecidableEq, Repr

/-- RPC operations the provisioning sequence can issue. -/
inductive RpcOp where
  | listWallets
  | loadWallet
  | createWallet
deriving DecidableEq, Repr

/-- Models `rpc.load_wallet(name)`: succeeds (and marks the wallet
loaded) iff the wallet exists on disk and is not already loaded; `inj`
injects a spurious node-side failure. -/
def loadWallet (s : NodeState) (n : String) (inj : Bool) :
    Except String NodeState :=
  if inj then Except.error "RPC failure"
  else if n ∈ s.onDisk ∧ n ∉ s.loaded then
    Except.ok { s with loaded := n :: s.loaded }
  else Except.error "Wallet not found or already loaded"

/-- Models `rpc.create_wallet(name, ...)`: succeeds (creating and loading
the wallet) iff no wallet of that name exists on disk; `inj` injects a
spurious node-side failure. -/
def createWallet (s : NodeState) (n : String) (inj : Bool) :
    Except String NodeState :=
  if inj then Except.error "RPC failure"
  else if n ∉ s.onDisk then
    Except.ok { loaded := n :: s.loaded, onDisk := n :: s.onDisk }
  else Except.error "Wallet already exists"

/-- The wallet-provisioning sequence of main.rs lines 57-71 (and its
copy at 74-88): skip if already listed as loaded, else load, else
create, else one final load whose failure propagates with `?`.  Returns
the result together with the trace of RPC operations issued; `i1 i2 i3`
inject spurious failures into the three fallible calls in order. -/
def ensureWallet (s : NodeState) (n : String) (i1 i2 i3 : Bool) :
    Except String NodeState × List RpcOp :=
  if n ∈ s.loaded then (Except.ok s, [RpcOp.listWallets])
  else
    match loadWallet s n i1 with
    | Except.ok s1 => (Except.ok s1, [RpcOp.listWallets, RpcOp.loadWallet])
    | Except.error _ =>
      match createWallet s n i2 with
      | Except.ok s2 =>
          (Except.ok s2,
           [RpcOp.listWallets, RpcOp.loadWallet, RpcOp.createWallet])
      | Except.error _ =>
          (loadWallet s n i3,
           [RpcOp.listWallets, RpcOp.loadWallet, RpcOp.createWallet,
            RpcOp.loadWallet])

/-! Concrete addresses and node data used to evaluate the definitions on
explicit inputs (the shapes the program actually produces on regtest:
a send of 20 BTC with one change output, plus variants). -/

/-- A regtest trader (counterparty) receive address. -/
def traderAddr : Address := ⟨"bcrt1qtrader", Network.regtest⟩

/-- A regtest miner change address. -/
def changeAddr : Address := ⟨"bcrt1qchange", Network.regtest⟩

/-- The miner mining-reward address used as the change fallback. -/
def minerAddr : Address := ⟨"bcrt1qminer", Network.regtest⟩

/-- An address valid on testnet, not on regtest. -/
def wrongNetAddr : Address := ⟨"tb1qwrongnet", Network.testnet⟩

/-- Decoded outputs of a typical run: 20 BTC to the trader and 5 BTC
change back to the miner wallet. -/
def sampleVouts : List DecodedVout :=
  [⟨some traderAddr, 20⟩, ⟨some changeAddr, 5⟩]

/-- gettransaction data for that run: one send-category detail of
-20 BTC (the amount paid to the counterparty) and a fee of -0.001 BTC,
consistent with inputs totalling 25.001 BTC. -/
def sampleTxd : GetTransactionResult :=
  ⟨[⟨Category.send, -20⟩], some (-(1 / 1000))⟩

/-- The settlement record the program builds from that data. -/
def sampleRecord : SettlementRecord :=
  buildRecord "txid0" minerAddr traderAddr sampleTxd (changeAddr, 5) 102 "hash0"

/-! ## Theorems -/

/-- Helper: the second extraction loop returns `none` (the unwrap panic)
whenever the script of some output yields no address, for any accumulator
values. -/
theorem extractOutputsLoop_panics (trader : Address) (outs : List TxOut)
    (h : ∃ o ∈ outs, from_script o.script_pubkey = none) :
    ∀ t c, extractOutputsLoop trader outs t c = none := by
  induction outs with
  | nil => simp at h
  | cons o rest ih =>
    intro t c
    rcases h with ⟨u, hu, hnone⟩
    rcases List.mem_cons.mp hu with rfl | hmem
    · simp [extractOutputsLoop, hnone]
    · cases hfs : from_script o.script_pubkey with
      | none => simp [extractOutputsLoop, hfs]
      | some a =>
        have hrec := ih ⟨u, hmem, hnone⟩
        simp only [extractOutputsLoop, hfs]
        split <;> exact hrec _ _

/-- Claim C2: the first output in output order whose resolved address
differs from the counterparty address becomes the change output (address
and amount recorded); when no non-matching output exists, the change
stays at the fallback (mining reward) address with amount 0.  Stated as
agreement of `classifyChange` with the spec-side `specFirstNonMatching`,
under the assumption that every present output address resolves on
regtest. -/
theorem c2_thm (outs : List DecodedVout) (trader : String) (fb : Address)
    (h : ∀ v ∈ outs, ∀ a, v.address = some a → a.network = Network.regtest) :
    classifyChange outs trader fb =
      Except.ok ((specFirstNonMatching trader outs).getD (fb, 0)) := by
  unfold classifyChange
  induction outs with
  | nil => rfl
  | cons v rest ih =>
    have hv := h v (by simp)
    have hrest : ∀ u ∈ rest, ∀ a, u.address = some a →
        a.network = Network.regtest := by
      intro u hu a ha
      exact h u (by simp [hu]) a ha
    cases hva : v.address with
    | none =>
        simpa [classifyChangeLoop, specFirstNonMatching, hva] using ih hrest
    | some a =>
        have hnet : a.network = Network.regtest := hv a hva
        by_cases hs : a.s ≠ trader
        · simp [classifyChangeLoop, specFirstNonMatching, hva,
                require_network, hnet, hs]
        · simpa [classifyChangeLoop, specFirstNonMatching, hva,
                 require_network, hnet, hs] using ih hrest

/-- Witness for C2 on the concrete two-output run. -/
theorem c2_witness :
    classifyChange sampleVouts "bcrt1qtrader" minerAddr =
      Except.ok ((specFirstNonMatching "bcrt1qtrader" sampleVouts).getD
        (minerAddr, 0)) :=
  c2_thm sampleVouts "bcrt1qtrader" minerAddr
    (by simp [sampleVouts, traderAddr, changeAddr])

/-- Claim C7: when no output pays anyone but the counterparty (outputs
sum exactly to payment plus fee, i.e. no change output exists), the
classification returns the fallback with change amount 0 without
aborting (an `ok` result), and the zero-change diagnostic lists the
warning with its three plausible root causes. -/
theorem c7_thm (outs : List DecodedVout) (trader : String) (fb : Address)
    (h : ∀ v ∈ outs, ∀ a, v.address = some a →
        a.network = Network.regtest ∧ a.s = trader) :
    classifyChange outs trader fb = Except.ok (fb, 0) ∧
    zeroChangeDiagnostic 0 =
      ["Warning: No change output found. This might indicate:",
       "1. The input amount exactly equals output + fees",
       "2. There is an issue with address comparison",
       "3. The transaction structure is different than expected"] := by
  refine ⟨?_, rfl⟩
  unfold classifyChange
  induction outs with
  | nil => rfl
  | cons v rest ih =>
    have hv := h v (by simp)
    have hrest : ∀ u ∈ rest, ∀ a, u.address = some a →
        a.network = Network.regtest ∧ a.s = trader := by
      intro u hu a ha
      exact h u (by simp [hu]) a ha
    cases hva : v.address with
    | none => simpa [classifyChangeLoop, hva] using ih hrest
    | some a =>
        obtain ⟨hnet, hmatch⟩ := hv a hva
        simpa [classifyChangeLoop, hva, require_network, hnet, hmatch]
          using ih hrest

/-- Witness for C7: both outputs pay the trader. -/
theorem c7_witness :
    classifyChange [⟨some traderAddr, 20⟩] "bcrt1qtrader" minerAddr =
      Except.ok (minerAddr, 0) ∧
    zeroChangeDiagnostic 0 =
      ["Warning: No change output found. This might indicate:",
       "1. The input amount exactly equals output + fees",
       "2. There is an issue with address comparison",
       "3. The transaction structure is different than expected"] :=
  c7_thm [⟨some traderAddr, 20⟩] "bcrt1qtrader" minerAddr
    (by simp [traderAddr])

/-- Claim C8: the computed fee — the absolute value of the node-reported
fee with default 0 — is non-negative for every possible fee field. -/
theorem c8_thm (fee : Option ℚ) : 0 ≤ computeFee fee :=
  abs_nonneg _

/-- Claim C9: the payment amount placed in the settlement record is the
hard-coded constant 20, for every transaction-details value, every
classified change, and every chain metadata value. -/
theorem c9_thm (txid : String) (m tr : Address)
    (txd : GetTransactionResult) (ch : Address × ℚ) (bh : Nat)
    (hsh : String) :
    (buildRecord txid m tr txd ch bh hsh).paymentAmount = output_amount ∧
    output_amount = 20 :=
  ⟨rfl, rfl⟩

/-- Claim C10: every output in the second extraction loop goes through
`from_script` followed by unwrap, so a transaction containing any output
whose script encodes no address (e.g. OP_RETURN) makes the loop panic
(modelled as the `none` result) instead of returning a value. -/
theorem c10_thm (outs : List TxOut) (trader : Address)
    (h : ∃ o ∈ outs, from_script o.script_pubkey = none) :
    extractOutputs outs trader = none :=
  extractOutputsLoop_panics trader outs h none none

/-- Witness for C10: a single OP_RETURN output panics the loop. -/
theorem c10_witness :
    extractOutputs [⟨Script.opReturn, 0⟩] traderAddr = none :=
  c10_thm [⟨Script.opReturn, 0⟩] traderAddr
    ⟨⟨Script.opReturn, 0⟩, by simp, rfl⟩

/-- Counterexample to C1 at a concrete two-output transaction (20 BTC to
the trader, 5 BTC change, fee 0.001 BTC, inputs totalling 25.001 BTC):
the classification does find the change output, but the reported input
amount is the absolute send-category amount (20), so payment + change +
fee = 25.001 differs from the reported input amount by far more than
currency precision (1e-8). -/
theorem c1_counterexample :
    classifyChange sampleVouts "bcrt1qtrader" minerAddr =
      Except.ok (changeAddr, 5) ∧
    sampleRecord.paymentAmount = 20 ∧
    sampleRecord.changeAmount = 5 ∧
    sampleRecord.fee = 1 / 1000 ∧
    sampleRecord.inputAmount = 20 ∧
    ¬ |sampleRecord.paymentAmount + sampleRecord.changeAmount +
        sampleRecord.fee - sampleRecord.inputAmount| ≤ 1 / 100000000 := by
  have hfee : sampleRecord.fee = 1 / 1000 := by
    show |Option.getD (some (-(1 / 1000) : ℚ)) 0| = 1 / 1000
    rw [Option.getD_some, abs_neg,
        abs_of_nonneg (by norm_num : (0 : ℚ) ≤ 1 / 1000)]
  have hin : sampleRecord.inputAmount = 20 := by
    show input_amount sampleTxd = 20
    simp only [input_amount, sampleTxd, List.find?]
    norm_num
  have hpay : sampleRecord.paymentAmount = 20 := rfl
  have hchg : sampleRecord.changeAmount = 5 := rfl
  refine ⟨rfl, hpay, hchg, hfee, hin, ?_⟩
  rw [hpay, hchg, hfee, hin,
      show (20 : ℚ) + 5 + 1 / 1000 - 20 = 5001 / 1000 by norm_num,
      abs_of_nonneg (by norm_num : (0 : ℚ) ≤ 5001 / 1000)]
  norm_num

/-- Claim C1, amended: for a transaction with exactly two outputs, one to
the counterparty and one to a different address, the extraction loop
assigns exactly one output as payment and exactly one as change (in
either output order); the reported input amount, however, is the absolute
value of the send-category detail amount reported by the node — the amount paid to the
counterparty — not the total of the inputs, so no identity between
payment + change + fee and the reported input amount is enforced. -/
theorem c1_amended (vp vc : TxOut) (trader a2 : Address)
    (hp : vp.script_pubkey = Script.withAddress trader)
    (hc : vc.script_pubkey = Script.withAddress a2)
    (hne : a2 ≠ trader)
    (txd : GetTransactionResult) (d : TxDetail)
    (hsend : txd.details.find? (fun x => x.category == Category.send) =
      some d) :
    extractOutputs [vp, vc] trader =
      some (some (trader, vp.value), some (a2, vc.value)) ∧
    extractOutputs [vc, vp] trader =
      some (some (trader, vp.value), some (a2, vc.value)) ∧
    input_amount txd = |d.amount| := by
  refine ⟨?_, ?_, ?_⟩
  · simp [extractOutputs, extractOutputsLoop, from_script, hp, hc, hne]
  · simp [extractOutputs, extractOutputsLoop, from_script, hp, hc, hne]
  · simp [input_amount, hsend]

/-- Witness for C1 (amended) on the concrete run data. -/
theorem c1_witness :
    extractOutputs [⟨Script.withAddress traderAddr, 20⟩,
        ⟨Script.withAddress changeAddr, 5⟩] traderAddr =
      some (some (traderAddr, 20), some (changeAddr, 5)) ∧
    extractOutputs [⟨Script.withAddress changeAddr, 5⟩,
        ⟨Script.withAddress traderAddr, 20⟩] traderAddr =
      some (some (traderAddr, 20), some (changeAddr, 5)) ∧
    input_amount sampleTxd = |(-20 : ℚ)| :=
  c1_amended ⟨Script.withAddress traderAddr, 20⟩
    ⟨Script.withAddress changeAddr, 5⟩ traderAddr changeAddr rfl rfl
    (by decide) sampleTxd ⟨Category.send, -20⟩ rfl

/-- Counterexample to C3: with a wrong-network address on the first
output, the whole classification returns an error (the `?` propagates),
so the remaining output — which on its own classifies fine as change —
is never classified; the failure is not local to the offending output. -/
theorem c3_counterexample :
    classifyChange [⟨some wrongNetAddr, 3 / 2⟩, ⟨some changeAddr, 5⟩]
        "bcrt1qtrader" minerAddr =
      Except.error
        ("Failed to process output address: address tb1qwrongnet is not valid on the required network") ∧
    (classifyChange [⟨some wrongNetAddr, 3 / 2⟩, ⟨some changeAddr, 5⟩]
        "bcrt1qtrader" minerAddr).isOk = false ∧
    classifyChange [⟨some changeAddr, 5⟩] "bcrt1qtrader" minerAddr =
      Except.ok (changeAddr, 5) :=
  ⟨rfl, rfl, rfl⟩

/-- Claim C3, amended: a network-resolution failure on an output aborts
the classification — the first output whose address is present and not
valid on regtest (all earlier outputs having matched the counterparty or
carried no address) makes `classifyChange` return an error, and that
error names the offending address. -/
theorem c3_amended (pre : List DecodedVout) (v : DecodedVout)
    (rest : List DecodedVout) (trader : String) (fb : Address) (a : Address)
    (hv : v.address = some a) (hbad : a.network ≠ Network.regtest)
    (hpre : ∀ u ∈ pre, ∀ b, u.address = some b →
        b.network = Network.regtest ∧ b.s = trader) :
    classifyChange (pre ++ v :: rest) trader fb =
      Except.error ("Failed to process output address: " ++ networkError a) ∧
    networkError a =
      "address " ++ a.s ++ " is not valid on the required network" := by
  refine ⟨?_, rfl⟩
  unfold classifyChange
  induction pre with
  | nil => simp [classifyChangeLoop, hv, require_network, hbad]
  | cons u us ih =>
    have hu := hpre u (by simp)
    have hus : ∀ w ∈ us, ∀ b, w.address = some b →
        b.network = Network.regtest ∧ b.s = trader := by
      intro w hw b hb
      exact hpre w (by simp [hw]) b hb
    cases hua : u.address with
    | none => simpa [classifyChangeLoop, hua] using ih hus
    | some b =>
        obtain ⟨hnet, hmatch⟩ := hu b hua
        simpa [classifyChangeLoop, hua, require_network, hnet, hmatch]
          using ih hus

/-- Witness for C3 (amended): payment output first, then a testnet
address. -/
theorem c3_witness :
    classifyChange ([⟨some traderAddr, 20⟩] ++
        ⟨some wrongNetAddr, 1⟩ :: []) "bcrt1qtrader" minerAddr =
      Except.error
        ("Failed to process output address: " ++ networkError wrongNetAddr) ∧
    networkError wrongNetAddr =
      "address " ++ wrongNetAddr.s ++
        " is not valid on the required network" :=
  c3_amended [⟨some traderAddr, 20⟩] ⟨some wrongNetAddr, 1⟩ []
    "bcrt1qtrader" minerAddr wrongNetAddr rfl (by decide)
    (by simp [traderAddr])

/-- Counterexample to C4: when the node reports no fee field, the record
the program builds is identical to the record of a run whose reported
fee was zero — nothing in the produced artifact flags the missing fee as
low-confidence. -/
theorem c4_counterexample :
    buildRecord "txid0" minerAddr traderAddr
        ⟨[⟨Category.send, -20⟩], none⟩ (changeAddr, 5) 102 "hash0" =
      buildRecord "txid0" minerAddr traderAddr
        ⟨[⟨Category.send, -20⟩], some 0⟩ (changeAddr, 5) 102 "hash0" ∧
    computeFee none = 0 :=
  ⟨rfl, abs_zero⟩

/-- Claim C4, amended: if the node reports no fee field, the computed fee
defaults to zero and the run does not fail (the computation is total);
no low-confidence flag is emitted — the resulting record equals that of
a run with a reported zero fee. -/
theorem c4_amended (txd : GetTransactionResult) (h : txd.fee = none)
    (txid : String) (m tr : Address) (ch : Address × ℚ) (bh : Nat)
    (hsh : String) :
    computeFee txd.fee = 0 ∧
    buildRecord txid m tr txd ch bh hsh =
      buildRecord txid m tr ⟨txd.details, some 0⟩ ch bh hsh := by
  obtain ⟨det, f⟩ := txd
  cases f with
  | none => exact ⟨by simp [computeFee], rfl⟩
  | some q => simp at h

/-- Witness for C4 (amended) on concrete data. -/
theorem c4_witness :
    computeFee (GetTransactionResult.fee ⟨[⟨Category.send, -20⟩], none⟩) = 0 ∧
    buildRecord "txid0" minerAddr traderAddr
        ⟨[⟨Category.send, -20⟩], none⟩ (changeAddr, 5) 102 "hash0" =
      buildRecord "txid0" minerAddr traderAddr
        ⟨[⟨Category.send, -20⟩], some 0⟩ (changeAddr, 5) 102 "hash0" :=
  c4_amended ⟨[⟨Category.send, -20⟩], none⟩ rfl "txid0" minerAddr
    traderAddr (changeAddr, 5) 102 "hash0"

/-- Helper: the character list of the newline literal. -/
theorem data_nl : ("\n" : String).data = ['\n'] := rfl

/-- Helper: a newline-free character list is a single line. -/
theorem splitOnNl_of_not_mem (a : List Char) (h : '\n' ∉ a) :
    splitOnNl a = [a] := by
  induction a with
  | nil => rfl
  | cons c cs ih =>
    simp only [List.mem_cons, not_or] at h
    obtain ⟨h1, h2⟩ := h
    rw [splitOnNl, if_neg (fun hc => h1 hc.symm), ih h2]

/-- Helper: splitting at the first newline after a newline-free block. -/
theorem splitOnNl_append (a b : List Char) (h : '\n' ∉ a) :
    splitOnNl (a ++ '\n' :: b) = a :: splitOnNl b := by
  induction a with
  | nil => simp [splitOnNl]
  | cons c cs ih =>
    simp only [List.mem_cons, not_or] at h
    obtain ⟨h1, h2⟩ := h
    rw [List.cons_append, splitOnNl, if_neg (fun hc => h1 hc.symm), ih h2]

/-- Claim C5: the report writer emits exactly the ten fields, one per
line, in the fixed order txid, sender funding address, input amount,
counterparty address, payment amount, change address, change amount,
fee, block height, block hash, with nothing after the final value (the
content splits into exactly those ten lines), and writing replaces
whatever the destination previously held (truncate-create). -/
theorem c5_thm (r : ReportFields)
    (h : ∀ f ∈ reportLines r, '\n' ∉ f.data) :
    linesOf (output_content r) = (reportLines r).map String.data ∧
    (∀ fs path p, writeReport fs path (output_content r) p =
        if p = path then some (output_content r) else fs p) := by
  constructor
  · have h1 := h r.txid (by simp [reportLines])
    have h2 := h r.mining_reward_address (by simp [reportLines])
    have h3 := h r.input_amount (by simp [reportLines])
    have h4 := h r.trader_receive_address (by simp [reportLines])
    have h5 := h r.output_amount (by simp [reportLines])
    have h6 := h r.change_address (by simp [reportLines])
    have h7 := h r.change_amount (by simp [reportLines])
    have h8 := h r.fee (by simp [reportLines])
    have h9 := h r.block_height (by simp [reportLines])
    have h10 := h r.block_hash (by simp [reportLines])
    show splitOnNl (output_content r).data = _
    have hd : (output_content r).data =
        r.txid.data ++ '\n' :: (r.mining_reward_address.data ++ '\n' ::
        (r.input_amount.data ++ '\n' :: (r.trader_receive_address.data ++
        '\n' :: (r.output_amount.data ++ '\n' :: (r.change_address.data ++
        '\n' :: (r.change_amount.data ++ '\n' :: (r.fee.data ++ '\n' ::
        (r.block_height.data ++ '\n' :: r.block_hash.data)))))))) := by
      simp [output_content, String.data_append, data_nl, List.append_assoc]
    rw [hd, splitOnNl_append _ _ h1, splitOnNl_append _ _ h2,
        splitOnNl_append _ _ h3, splitOnNl_append _ _ h4,
        splitOnNl_append _ _ h5, splitOnNl_append _ _ h6,
        splitOnNl_append _ _ h7, splitOnNl_append _ _ h8,
        splitOnNl_append _ _ h9, splitOnNl_of_not_mem _ h10]
    simp [reportLines]
  · intro fs path p
    rfl

/-- Witness for C5 on the concrete record of the report-field
example in the spec (txid abc123, miner and trader addresses, the amounts,
block 102). -/
theorem c5_witness :
    linesOf (output_content ⟨"abc123", "bcrt1qminer", "121",
        "bcrt1qtrader", "20", "bcrt1qminer", "100.9999", "0.0001",
        "102", "00..ff"⟩) =
      (reportLines ⟨"abc123", "bcrt1qminer", "121", "bcrt1qtrader",
        "20", "bcrt1qminer", "100.9999", "0.0001", "102",
        "00..ff"⟩).map String.data ∧
    (∀ fs path p, writeReport fs path
        (output_content ⟨"abc123", "bcrt1qminer", "121", "bcrt1qtrader",
          "20", "bcrt1qminer", "100.9999", "0.0001", "102",
          "00..ff"⟩) p =
      if p = path then
        some (output_content ⟨"abc123", "bcrt1qminer", "121",
          "bcrt1qtrader", "20", "bcrt1qminer", "100.9999", "0.0001",
          "102", "00..ff"⟩)
      else fs p) :=
  c5_thm ⟨"abc123", "bcrt1qminer", "121", "bcrt1qtrader", "20",
    "bcrt1qminer", "100.9999", "0.0001", "102", "00..ff"⟩ (by decide)

/-- Helper: a successful load leaves the wallet loaded. -/
theorem loadWallet_ok_mem (s : NodeState) (n : String) (i : Bool)
    (s2 : NodeState) (h : loadWallet s n i = Except.ok s2) :
    n ∈ s2.loaded := by
  unfold loadWallet at h
  split at h
  · simp at h
  · split at h
    · have hs : { s with loaded := n :: s.loaded } = s2 := by simpa using h
      rw [← hs]
      simp
    · simp at h

/-- Helper: a successful create leaves the wallet loaded. -/
theorem createWallet_ok_mem (s : NodeState) (n : String) (i : Bool)
    (s2 : NodeState) (h : createWallet s n i = Except.ok s2) :
    n ∈ s2.loaded := by
  unfold createWallet at h
  split at h
  · simp at h
  · split at h
    · have hs : ({ loaded := n :: s.loaded, onDisk := n :: s.onDisk } :
          NodeState) = s2 := by simpa using h
      rw [← hs]
      simp
    · simp at h

/-- Helper: whenever provisioning succeeds, the wallet is loaded in the
resulting node state. -/
theorem ensure_ok_mem (s : NodeState) (n : String) (s1 : NodeState)
    (h : (ensureWallet s n false false false).1 = Except.ok s1) :
    n ∈ s1.loaded := by
  unfold ensureWallet at h
  by_cases hmem : n ∈ s.loaded
  · rw [if_pos hmem] at h
    have hs : s = s1 := by simpa using h
    exact hs ▸ hmem
  · rw [if_neg hmem] at h
    cases hL : loadWallet s n false with
    | ok s2 =>
        rw [hL] at h
        have hs : s2 = s1 := by simpa using h
        exact hs ▸ loadWallet_ok_mem s n false s2 hL
    | error e =>
        rw [hL] at h
        cases hC : createWallet s n false with
        | ok s2 =>
            rw [hC] at h
            have hs : s2 = s1 := by simpa using h
            exact hs ▸ createWallet_ok_mem s n false s2 hC
        | error e2 =>
            rw [hC] at h
            exact loadWallet_ok_mem s n false s1 (by simpa using h)

/-- Claim C6: provisioning first checks the loaded-wallet list and
returns at once when the wallet is already loaded; otherwise it issues
load, create, and at most one more load (never more than two load
attempts in total), the failure of that last load is the failure of the
whole operation with no further retry, and a second call after a
successful call against the resulting node state succeeds immediately. -/
theorem c6_thm (s : NodeState) (n : String) (i1 i2 i3 : Bool) :
    (n ∈ s.loaded →
      ensureWallet s n i1 i2 i3 = (Except.ok s, [RpcOp.listWallets])) ∧
    (ensureWallet s n i1 i2 i3).2.count RpcOp.loadWallet ≤ 2 ∧
    (n ∉ s.loaded → (loadWallet s n i1).isOk = false →
      (createWallet s n i2).isOk = false →
      ensureWallet s n i1 i2 i3 =
        (loadWallet s n i3,
         [RpcOp.listWallets, RpcOp.loadWallet, RpcOp.createWallet,
          RpcOp.loadWallet])) ∧
    (∀ s1, (ensureWallet s n false false false).1 = Except.ok s1 →
      ensureWallet s1 n false false false =
        (Except.ok s1, [RpcOp.listWallets])) := by
  refine ⟨?_, ?_, ?_, ?_⟩
  · intro hmem
    simp [ensureWallet, hmem]
  · unfold ensureWallet
    by_cases hmem : n ∈ s.loaded
    · rw [if_pos hmem]
      show List.count RpcOp.loadWallet [RpcOp.listWallets] ≤ 2
      decide
    · rw [if_neg hmem]
      cases loadWallet s n i1 with
      | ok s1 =>
          show List.count RpcOp.loadWallet
            [RpcOp.listWallets, RpcOp.loadWallet] ≤ 2
          decide
      | error e =>
        cases createWallet s n i2 with
        | ok s2 =>
            show List.count RpcOp.loadWallet
              [RpcOp.listWallets, RpcOp.loadWallet, RpcOp.createWallet] ≤ 2
            decide
        | error e2 =>
            show List.count RpcOp.loadWallet
              [RpcOp.listWallets, RpcOp.loadWallet, RpcOp.createWallet,
               RpcOp.loadWallet] ≤ 2
            decide
  · intro hmem hL hC
    unfold ensureWallet
    rw [if_neg hmem]
    cases hL2 : loadWallet s n i1 with
    | ok s1 => rw [hL2] at hL; simp [Except.isOk, Except.toBool] at hL
    | error e =>
      cases hC2 : createWallet s n i2 with
      | ok s2 => rw [hC2] at hC; simp [Except.isOk, Except.toBool] at hC
      | error e2 => rfl
  · intro s1 h
    have hmem1 : n ∈ s1.loaded := ensure_ok_mem s n s1 h
    simp [ensureWallet, hmem1]

/-- Witness for C6: a loaded wallet short-circuits; a spuriously failing
node exhausts the bounded retry; a second call after a successful
provisioning succeeds immediately. -/
theorem c6_witness :
    ensureWallet ⟨["Miner"], ["Miner"]⟩ "Miner" false false false =
      (Except.ok ⟨["Miner"], ["Miner"]⟩, [RpcOp.listWallets]) ∧
    ensureWallet ⟨[], []⟩ "Miner" true true true =
      (loadWallet ⟨[], []⟩ "Miner" true,
       [RpcOp.listWallets, RpcOp.loadWallet, RpcOp.createWallet,
        RpcOp.loadWallet]) ∧
    ensureWallet ⟨["Miner"], ["Miner"]⟩ "Miner" false false false =
      (Except.ok ⟨["Miner"], ["Miner"]⟩, [RpcOp.listWallets]) :=
  ⟨(c6_thm ⟨["Miner"], ["Miner"]⟩ "Miner" false false false).1
      (by simp),
   (c6_thm ⟨[], []⟩ "Miner" true true true).2.2.1 (by simp) rfl rfl,
   (c6_thm ⟨[], []⟩ "Miner" false false false).2.2.2
      ⟨["Miner"], ["Miner"]⟩ rfl⟩

end Settlement
